import Mathlib

/-!
# Verification of the scenario-builder engine (`src/parser.py`)

This file gives a shallow embedding of the scenario builder: the entity
model (`Message`, `State`, `Group`, `Fragment`), the mutable
`ScenarioBuilder` with its context stack, and the textual renderer.

Python objects `Group` and `Fragment` are mutable and referenced from
several places (the tree and the "current" pointers).  We model the heap
of these objects as two arenas (`groups`, `fragments`: lists of records
keyed by their unique id) and references to them as their `Nat` ids; an
`Item` inside a container is either an inline event (events are never
mutated after creation) or a fragment reference.  Each Python method
becomes a function `Builder → Except BuilderError α × Builder`: the
returned `Builder` is the state of the object after the call even when
an exception is raised, exactly as in Python, where a raise does not
undo earlier field assignments of the same call.
-/

namespace Scenario

/-- `Message` from the source: an event exchanging data, with a unique id. -/
structure Message where
  id : Nat
  exchanged_items : List String
deriving DecidableEq

/-- `State` from the source: an event carrying a status label, with a unique id. -/
structure State where
  id : Nat
  state_info : String
deriving DecidableEq

/-- A child of the base list or of a group's `items`: an event held inline,
or a reference (by id) to a `Fragment` object in the fragment arena. -/
inductive Item where
  | msg : Message → Item
  | state : State → Item
  | frag : Nat → Item
deriving DecidableEq

/-- The fields of a Python `Group` object: id, display name, optional guard,
and the chronologically ordered `items` list. -/
structure GroupData where
  id : Nat
  name : String
  guard : Option String
  items : List Item
deriving DecidableEq

/-- The fields of a Python `Fragment` object: id, display name, and the
ordered list of its groups (held as references into the group arena). -/
structure FragmentData where
  id : Nat
  name : String
  groups : List Nat
deriving DecidableEq

/-- The distinct precondition violations of the builder (the spec's names
for the three `raise Exception(...)` sites), plus `AttributeError`, which
models the only other way a builder method can fail: `exit_fragment`
reading `self.current_fragment.name` when `current_fragment` is `None`. -/
inductive BuilderError where
  | NoActiveGroup
  | NoActiveFragment
  | EmptyContextStack
  | AttributeError
deriving DecidableEq

/-- The state of a `ScenarioBuilder` object, together with the arenas
holding the `Group` and `Fragment` objects it has created and attached. -/
structure Builder where
  base : List Item
  fragments : List FragmentData
  groups : List GroupData
  current_fragment : Option Nat
  current_group : Option Nat
  state_stack : List (Option Nat × Option Nat)
  event_counter : Nat
  group_counter : Nat
  fragment_counter : Nat
deriving DecidableEq

/-- `ScenarioBuilder.__init__`. -/
def initBuilder : Builder :=
  { base := [], fragments := [], groups := [],
    current_fragment := none, current_group := none, state_stack := [],
    event_counter := 1, group_counter := 1, fragment_counter := 1 }

/-- Dereference a fragment id in the arena. -/
def findFragment (b : Builder) (i : Nat) : Option FragmentData :=
  b.fragments.find? fun fd => fd.id = i

/-- Dereference a group id in the arena. -/
def findGroup (b : Builder) (i : Nat) : Option GroupData :=
  b.groups.find? fun gd => gd.id = i

/-- `Group.add_item` performed on the group object with id `i`:
append `it` to that group's `items` list. -/
def addItemToGroup (l : List GroupData) (i : Nat) (it : Item) : List GroupData :=
  l.map fun gd => if gd.id = i then { gd with items := gd.items ++ [it] } else gd

/-- `Fragment.add_group` performed on the fragment object with id `i`:
append the group reference `gid` to that fragment's `groups` list. -/
def addGroupToFragment (l : List FragmentData) (i : Nat) (gid : Nat) : List FragmentData :=
  l.map fun fd => if fd.id = i then { fd with groups := fd.groups ++ [gid] } else fd

/-- `ScenarioBuilder.add_message`: the `Message` is constructed and the
event counter advanced before the active-group check, as in the source. -/
def add_message (b : Builder) (exchanged_items : List String) :
    Except BuilderError Message × Builder :=
  let message : Message := ⟨b.event_counter, exchanged_items⟩
  let b1 := { b with event_counter := b.event_counter + 1 }
  match b1.current_fragment with
  | none => (.ok message, { b1 with base := b1.base ++ [.msg message] })
  | some _ =>
    match b1.current_group with
    | none => (.error .NoActiveGroup, b1)
    | some g => (.ok message, { b1 with groups := addItemToGroup b1.groups g (.msg message) })

/-- `ScenarioBuilder.add_state`: same placement and error logic as
`add_message`, creating a `State` instead. -/
def add_state (b : Builder) (state_info : String) :
    Except BuilderError State × Builder :=
  let state_event : State := ⟨b.event_counter, state_info⟩
  let b1 := { b with event_counter := b.event_counter + 1 }
  match b1.current_fragment with
  | none => (.ok state_event, { b1 with base := b1.base ++ [.state state_event] })
  | some _ =>
    match b1.current_group with
    | none => (.error .NoActiveGroup, b1)
    | some g => (.ok state_event, { b1 with groups := addItemToGroup b1.groups g (.state state_event) })

/-- `ScenarioBuilder.enter_fragment`: the `Fragment` is constructed and the
fragment counter advanced first; on the error path the object is discarded
(never attached, so never entered into the arena) but the counter stays
advanced.  On success the fragment is attached, the current (fragment,
group) pair is pushed, the new fragment becomes current and the current
group is cleared. -/
def enter_fragment (b : Builder) : Except BuilderError FragmentData × Builder :=
  let frag : FragmentData :=
    ⟨b.fragment_counter, "Fragment " ++ toString b.fragment_counter, []⟩
  let b1 := { b with fragment_counter := b.fragment_counter + 1 }
  match b1.current_fragment with
  | none =>
    (.ok frag,
      { b1 with base := b1.base ++ [.frag frag.id],
                fragments := b1.fragments ++ [frag],
                state_stack := (b1.current_fragment, b1.current_group) :: b1.state_stack,
                current_fragment := some frag.id,
                current_group := none })
  | some _ =>
    match b1.current_group with
    | none => (.error .NoActiveGroup, b1)
    | some g =>
      (.ok frag,
        { b1 with groups := addItemToGroup b1.groups g (.frag frag.id),
                  fragments := b1.fragments ++ [frag],
                  state_stack := (b1.current_fragment, b1.current_group) :: b1.state_stack,
                  current_fragment := some frag.id,
                  current_group := none })

/-- `ScenarioBuilder.enter_group`: fails if no fragment is active;
otherwise creates the group, appends it to the current fragment's group
list and makes it current. -/
def enter_group (b : Builder) (guard : Option String) :
    Except BuilderError GroupData × Builder :=
  match b.current_fragment with
  | none => (.error .NoActiveFragment, b)
  | some f =>
    let group : GroupData :=
      ⟨b.group_counter, "Group " ++ toString b.group_counter, guard, []⟩
    (.ok group,
      { b with group_counter := b.group_counter + 1,
               groups := b.groups ++ [group],
               fragments := addGroupToFragment b.fragments f group.id,
               current_group := some group.id })

/-- `ScenarioBuilder.exit_fragment`: fails with `EmptyContextStack` on an
empty stack; otherwise it pops, then (still before reassigning the current
pointers) the source reads `self.current_fragment.name` for its log line —
if `current_fragment` is `None` at that moment Python raises
`AttributeError` with the stack already popped; otherwise the popped pair
is restored as current. -/
def exit_fragment (b : Builder) : Except BuilderError Unit × Builder :=
  match b.state_stack with
  | [] => (.error .EmptyContextStack, b)
  | (prev_fragment, prev_group) :: rest =>
    match b.current_fragment with
    | none => (.error .AttributeError, { b with state_stack := rest })
    | some _ =>
      (.ok (),
        { b with state_stack := rest,
                 current_fragment := prev_fragment,
                 current_group := prev_group })

/-- `ScenarioBuilder.get_scenario`: the base list as currently built. -/
def get_scenario (b : Builder) : List Item := b.base

/-! ## Sequences of builder calls -/

/-- One builder call, with its arguments. -/
inductive Op where
  | addMessage : List String → Op
  | addState : String → Op
  | enterFragment : Op
  | enterGroup : Option String → Op
  | exitFragment : Op
deriving DecidableEq

/-- Apply one call to the builder, keeping the error (if any) and the
builder's state after the call. -/
def applyOp (b : Builder) : Op → Except BuilderError Unit × Builder
  | .addMessage xs =>
    let r := add_message b xs
    (r.1.map fun _ => (), r.2)
  | .addState s =>
    let r := add_state b s
    (r.1.map fun _ => (), r.2)
  | .enterFragment =>
    let r := enter_fragment b
    (r.1.map fun _ => (), r.2)
  | .enterGroup g =>
    let r := enter_group b g
    (r.1.map fun _ => (), r.2)
  | .exitFragment => exit_fragment b

/-- Run a sequence of calls, threading the builder through even when a
call raises (as a caller catching and ignoring each exception would). -/
def runOps (b : Builder) : List Op → Builder
  | [] => b
  | op :: rest => runOps (applyOp b op).2 rest

/-- Run a sequence of calls, stopping at the first raised exception (as an
uncaught Python exception would abort the calling sequence). -/
def runOpsE (b : Builder) : List Op → Except BuilderError Builder
  | [] => .ok b
  | op :: rest =>
    match applyOp b op with
    | (.ok _, b1) => runOpsE b1 rest
    | (.error e, _) => .error e

/-- A builder state is reachable when some call sequence produces it from
a fresh `ScenarioBuilder`. -/
def Reachable (b : Builder) : Prop :=
  ∃ ops : List Op, runOps initBuilder ops = b

/-! ## Ghost trace of assigned ids

The source constructs each node (and hence consumes an id) at a precise
point of each method, sometimes before a precondition check: `add_message`
and `add_state` always construct their event, `enter_fragment` always
constructs its fragment, `enter_group` checks `current_fragment` before
constructing.  These functions record, per call, the ids handed out, read
off from those construction sites. -/

/-- Event ids assigned by one call in state `b`. -/
def assignedEventIds (b : Builder) : Op → List Nat
  | .addMessage _ => [b.event_counter]
  | .addState _ => [b.event_counter]
  | _ => []

/-- Group ids assigned by one call in state `b`. -/
def assignedGroupIds (b : Builder) : Op → List Nat
  | .enterGroup _ => if b.current_fragment.isSome then [b.group_counter] else []
  | _ => []

/-- Fragment ids assigned by one call in state `b`. -/
def assignedFragmentIds (b : Builder) : Op → List Nat
  | .enterFragment => [b.fragment_counter]
  | _ => []

/-- All event ids assigned over a call sequence, in creation order. -/
def traceEventIds (b : Builder) : List Op → List Nat
  | [] => []
  | op :: rest => assignedEventIds b op ++ traceEventIds (applyOp b op).2 rest

/-- All group ids assigned over a call sequence, in creation order. -/
def traceGroupIds (b : Builder) : List Op → List Nat
  | [] => []
  | op :: rest => assignedGroupIds b op ++ traceGroupIds (applyOp b op).2 rest

/-- All fragment ids assigned over a call sequence, in creation order. -/
def traceFragmentIds (b : Builder) : List Op → List Nat
  | [] => []
  | op :: rest => assignedFragmentIds b op ++ traceFragmentIds (applyOp b op).2 rest

/-! ## Resolved view of the tree

`get_scenario` returns the base list, whose fragment entries are arena
references.  `resolveItem` chases the references (with the number of
fragments ever created as ample fuel) to give the plain tree a consumer
such as `print_scenario` or `pprint` observes. -/

/-- A fully dereferenced node: an event, or a fragment with its id and,
for each group in order, the group's id, guard, and resolved items. -/
inductive RTree where
  | msg : Nat → List String → RTree
  | state : Nat → String → RTree
  | frag : Nat → List (Nat × Option String × List RTree) → RTree

/-- Dereference one item, recursing through nested fragments. -/
def resolveItem (b : Builder) : Nat → Item → RTree
  | _, .msg m => .msg m.id m.exchanged_items
  | _, .state s => .state s.id s.state_info
  | 0, .frag i => .frag i []
  | fuel + 1, .frag i =>
    match findFragment b i with
    | none => .frag i []
    | some fd =>
      .frag i (fd.groups.map fun gid =>
        match findGroup b gid with
        | none => (gid, none, [])
        | some gd => (gid, gd.guard, gd.items.map (resolveItem b fuel)))

/-- The scenario tree as observed through `get_scenario`. -/
def resolveScenario (b : Builder) : List RTree :=
  (get_scenario b).map (resolveItem b b.fragment_counter)

/-! ## Renderer (`print_scenario`)

Embedded as the list of printed lines.  Only the per-node formatting
matters for the claims; the guard suffix of a group's branch header is the
part the guarded-versus-unguarded property is about. -/

/-- The `guard_str` computed by `print_scenario` for a group. -/
def guardStr (guard : Option String) : String :=
  match guard with
  | some g => " [Guard: " ++ g ++ "]"
  | none => ""

/-- The branch header line `print_scenario` emits for a group at a given
indentation. -/
def groupHeaderLine (indent : Nat) (gd : GroupData) : String :=
  String.join (List.replicate indent "  ") ++ "  * " ++ gd.name ++ guardStr gd.guard ++ " (Group):"

/-- The call sequence of the example driver in `__main__`, which is also
the end-to-end sequence of the spec's §8. -/
def demoOps : List Op :=
  [ .addMessage ["data1", "data2"],
    .addMessage ["data3", "data4"],
    .enterFragment,
    .enterGroup (some "x > 5"),
    .addMessage ["data5"],
    .addState "Processing",
    .enterGroup (some "x <= 5"),
    .addMessage ["data6", "data7"],
    .exitFragment,
    .addMessage ["data8"] ]

/-! ## General lemmas about running call sequences -/

lemma runOpsE_append (l1 l2 : List Op) :
    ∀ b, runOpsE b (l1 ++ l2) = (runOpsE b l1).bind fun b1 => runOpsE b1 l2 := by
  induction l1 with
  | nil => intro b; rfl
  | cons op rest ih =>
    intro b
    simp only [List.cons_append, runOpsE]
    cases applyOp b op with
    | mk r b1 =>
      cases r with
      | ok _ => exact ih b1
      | error e => rfl

lemma runOps_append (l1 l2 : List Op) :
    ∀ b, runOps b (l1 ++ l2) = runOps (runOps b l1) l2 := by
  induction l1 with
  | nil => intro b; rfl
  | cons op rest ih => intro b; simp only [List.cons_append, runOps]; exact ih _

/-! ## Step lemmas: each builder call reduced in each context -/

lemma add_message_base (b : Builder) (xs : List String) (h : b.current_fragment = none) :
    add_message b xs =
      (.ok ⟨b.event_counter, xs⟩,
        { b with event_counter := b.event_counter + 1,
                 base := b.base ++ [.msg ⟨b.event_counter, xs⟩] }) := by
  simp [add_message, h]

lemma add_message_group (b : Builder) (xs : List String) (f g : Nat)
    (hf : b.current_fragment = some f) (hg : b.current_group = some g) :
    add_message b xs =
      (.ok ⟨b.event_counter, xs⟩,
        { b with event_counter := b.event_counter + 1,
                 groups := addItemToGroup b.groups g (.msg ⟨b.event_counter, xs⟩) }) := by
  simp [add_message, hf, hg]

lemma add_message_err (b : Builder) (xs : List String) (f : Nat)
    (hf : b.current_fragment = some f) (hg : b.current_group = none) :
    add_message b xs =
      (.error .NoActiveGroup, { b with event_counter := b.event_counter + 1 }) := by
  simp [add_message, hf, hg]

lemma add_state_base (b : Builder) (s : String) (h : b.current_fragment = none) :
    add_state b s =
      (.ok ⟨b.event_counter, s⟩,
        { b with event_counter := b.event_counter + 1,
                 base := b.base ++ [.state ⟨b.event_counter, s⟩] }) := by
  simp [add_state, h]

lemma add_state_group (b : Builder) (s : String) (f g : Nat)
    (hf : b.current_fragment = some f) (hg : b.current_group = some g) :
    add_state b s =
      (.ok ⟨b.event_counter, s⟩,
        { b with event_counter := b.event_counter + 1,
                 groups := addItemToGroup b.groups g (.state ⟨b.event_counter, s⟩) }) := by
  simp [add_state, hf, hg]

lemma add_state_err (b : Builder) (s : String) (f : Nat)
    (hf : b.current_fragment = some f) (hg : b.current_group = none) :
    add_state b s =
      (.error .NoActiveGroup, { b with event_counter := b.event_counter + 1 }) := by
  simp [add_state, hf, hg]

lemma enter_fragment_base (b : Builder) (h : b.current_fragment = none) :
    enter_fragment b =
      (.ok ⟨b.fragment_counter, "Fragment " ++ toString b.fragment_counter, []⟩,
        { b with fragment_counter := b.fragment_counter + 1,
                 base := b.base ++ [.frag b.fragment_counter],
                 fragments :=
                   b.fragments ++ [⟨b.fragment_counter, "Fragment " ++ toString b.fragment_counter, []⟩],
                 state_stack := (b.current_fragment, b.current_group) :: b.state_stack,
                 current_fragment := some b.fragment_counter,
                 current_group := none }) := by
  simp [enter_fragment, h]

lemma enter_fragment_group (b : Builder) (f g : Nat)
    (hf : b.current_fragment = some f) (hg : b.current_group = some g) :
    enter_fragment b =
      (.ok ⟨b.fragment_counter, "Fragment " ++ toString b.fragment_counter, []⟩,
        { b with fragment_counter := b.fragment_counter + 1,
                 groups := addItemToGroup b.groups g (.frag b.fragment_counter),
                 fragments :=
                   b.fragments ++ [⟨b.fragment_counter, "Fragment " ++ toString b.fragment_counter, []⟩],
                 state_stack := (b.current_fragment, b.current_group) :: b.state_stack,
                 current_fragment := some b.fragment_counter,
                 current_group := none }) := by
  simp [enter_fragment, hf, hg]

lemma enter_fragment_err (b : Builder) (f : Nat)
    (hf : b.current_fragment = some f) (hg : b.current_group = none) :
    enter_fragment b =
      (.error .NoActiveGroup, { b with fragment_counter := b.fragment_counter + 1 }) := by
  simp [enter_fragment, hf, hg]

lemma enter_group_err (b : Builder) (guard : Option String) (h : b.current_fragment = none) :
    enter_group b guard = (.error .NoActiveFragment, b) := by
  simp [enter_group, h]

lemma enter_group_some (b : Builder) (guard : Option String) (f : Nat)
    (hf : b.current_fragment = some f) :
    enter_group b guard =
      (.ok ⟨b.group_counter, "Group " ++ toString b.group_counter, guard, []⟩,
        { b with group_counter := b.group_counter + 1,
                 groups := b.groups ++ [⟨b.group_counter, "Group " ++ toString b.group_counter, guard, []⟩],
                 fragments := addGroupToFragment b.fragments f b.group_counter,
                 current_group := some b.group_counter }) := by
  simp [enter_group, hf]

lemma exit_fragment_nil (b : Builder) (h : b.state_stack = []) :
    exit_fragment b = (.error .EmptyContextStack, b) := by
  simp [exit_fragment, h]

lemma exit_fragment_cons (b : Builder) (p : Option Nat × Option Nat)
    (rest : List (Option Nat × Option Nat)) (f : Nat)
    (hss : b.state_stack = p :: rest) (hcf : b.current_fragment = some f) :
    exit_fragment b =
      (.ok (), { b with state_stack := rest,
                        current_fragment := p.1, current_group := p.2 }) := by
  obtain ⟨p1, p2⟩ := p
  simp [exit_fragment, hss, hcf]

/-! ## Claim C1 -/

/-- C1 (as frozen) is false on the code: the end-to-end driver sequence
creates only six events, so the event ids assigned in call order are
1,2,3,4,5,6 — not 1..8 as the claim asserts. -/
theorem C1_counterexample :
    traceEventIds initBuilder demoOps = [1, 2, 3, 4, 5, 6] ∧
    traceEventIds initBuilder demoOps ≠ [1, 2, 3, 4, 5, 6, 7, 8] := by
  exact ⟨rfl, by decide⟩

/-- C1 (amended: event ids 1..6, other ids as claimed): the driver
sequence runs with no error, and `get_scenario` then holds exactly four
top-level items — a Message, a Message, a Fragment with two Groups (the
first guarded "x > 5" holding one Message then one State, the second
guarded "x <= 5" holding one Message), and a trailing Message; event ids
are 1..6 in strict call order, the fragment has id 1, the groups ids 1
and 2. -/
theorem C1_end_to_end_scenario :
    (∃ b, runOpsE initBuilder demoOps = .ok b) ∧
    resolveScenario (runOps initBuilder demoOps) =
      [ .msg 1 ["data1", "data2"],
        .msg 2 ["data3", "data4"],
        .frag 1
          [ (1, some "x > 5", [.msg 3 ["data5"], .state 4 "Processing"]),
            (2, some "x <= 5", [.msg 5 ["data6", "data7"]]) ],
        .msg 6 ["data8"] ] ∧
    traceEventIds initBuilder demoOps = [1, 2, 3, 4, 5, 6] ∧
    traceGroupIds initBuilder demoOps = [1, 2] ∧
    traceFragmentIds initBuilder demoOps = [1] :=
  ⟨⟨runOps initBuilder demoOps, rfl⟩, rfl, rfl, rfl, rfl⟩

/-! ## Claim C4: stack discipline -/

/-- Shape of a reachable context stack: the bottom entry is the saved
top-level context `(none, none)`, and every entry above it saves a context
that was inside some fragment. -/
def stackOK : List (Option Nat × Option Nat) → Prop
  | [] => True
  | p :: rest => (rest = [] → p = (none, none)) ∧ (rest ≠ [] → p.1 ≠ none) ∧ stackOK rest

/-- `n` nested fragment entries, each nested one preceded by the group
entry the code requires before a fragment can be attached inside another. -/
def nestedEnters : Nat → List Op
  | 0 => []
  | n + 1 =>
    nestedEnters n ++ (if n = 0 then [Op.enterFragment] else [Op.enterGroup none, Op.enterFragment])

lemma exits_run (n : Nat) :
    ∀ b : Builder, b.current_fragment ≠ none → stackOK b.state_stack →
      b.state_stack.length = n + 1 →
      ∃ b' : Builder, runOpsE b (List.replicate (n + 1) Op.exitFragment) = .ok b' ∧
        b'.current_fragment = none ∧ b'.current_group = none ∧ b'.state_stack = [] := by
  induction n with
  | zero =>
    intro b hcf hsok hlen
    obtain ⟨f, hf⟩ : ∃ f, b.current_fragment = some f := by
      cases h : b.current_fragment with
      | none => exact absurd h hcf
      | some f => exact ⟨f, rfl⟩
    cases hss : b.state_stack with
    | nil => rw [hss] at hlen; simp at hlen
    | cons p rest =>
      rw [hss] at hlen hsok
      have hrest : rest = [] := by simpa using hlen
      have hp : p = (none, none) := hsok.1 hrest
      subst hrest hp
      have hrun : runOpsE b [Op.exitFragment]
          = .ok { b with state_stack := [], current_fragment := none, current_group := none } := by
        simp only [runOpsE, applyOp, exit_fragment_cons b _ [] f hss hf]
      exact ⟨_, hrun, rfl, rfl, rfl⟩
  | succ n ih =>
    intro b hcf hsok hlen
    obtain ⟨f, hf⟩ : ∃ f, b.current_fragment = some f := by
      cases h : b.current_fragment with
      | none => exact absurd h hcf
      | some f => exact ⟨f, rfl⟩
    cases hss : b.state_stack with
    | nil => rw [hss] at hlen; simp at hlen
    | cons p rest =>
      rw [hss] at hlen hsok
      have hrest : rest ≠ [] := by
        intro h
        rw [h] at hlen
        simp at hlen
      have hlen' : rest.length = n + 1 := by
        simpa using hlen
      have hstep := exit_fragment_cons b p rest f hss hf
      obtain ⟨b', hrun, h1, h2, h3⟩ :=
        ih { b with state_stack := rest, current_fragment := p.1, current_group := p.2 }
          (hsok.2.1 hrest) hsok.2.2 hlen'
      refine ⟨b', ?_, h1, h2, h3⟩
      rw [List.replicate_succ]
      simp only [runOpsE, applyOp, hstep]
      exact hrun

lemma nestedEnters_run (n : Nat) (hn : 1 ≤ n) :
    ∃ (b : Builder) (f : Nat), runOpsE initBuilder (nestedEnters n) = .ok b ∧
      b.current_fragment = some f ∧ b.current_group = none ∧
      b.state_stack.length = n ∧ stackOK b.state_stack := by
  induction n with
  | zero => exact absurd hn (by simp)
  | succ n ih =>
    cases Nat.eq_zero_or_pos n with
    | inl h0 =>
      subst h0
      have hrun : runOpsE initBuilder (nestedEnters 1)
          = .ok { initBuilder with
                    fragment_counter := 2,
                    base := [.frag 1],
                    fragments := [⟨1, "Fragment " ++ toString 1, []⟩],
                    state_stack := [(none, none)],
                    current_fragment := some 1,
                    current_group := none } := by
        show runOpsE initBuilder ([] ++ [Op.enterFragment]) = _
        simp only [List.nil_append, runOpsE, applyOp,
          enter_fragment_base initBuilder rfl]
        rfl
      exact ⟨_, 1, hrun, rfl, rfl, rfl, fun _ => rfl, fun h => absurd rfl h, trivial⟩
    | inr hpos =>
      obtain ⟨b, f, hrun, hcf, hcg, hlen, hsok⟩ := ih hpos
      have hne : ¬ n = 0 := Nat.pos_iff_ne_zero.mp hpos
      have hsplit : nestedEnters (n + 1) = nestedEnters n ++ [Op.enterGroup none, Op.enterFragment] := by
        simp [nestedEnters, hne]
      have hgstep := enter_group_some b none f hcf
      set b1 : Builder :=
        { b with group_counter := b.group_counter + 1,
                 groups := b.groups ++ [⟨b.group_counter, "Group " ++ toString b.group_counter, none, []⟩],
                 fragments := addGroupToFragment b.fragments f b.group_counter,
                 current_group := some b.group_counter } with hb1
      have hcf1 : b1.current_fragment = some f := hcf
      have hcg1 : b1.current_group = some b.group_counter := rfl
      have hfstep := enter_fragment_group b1 f b.group_counter hcf1 hcg1
      set b2 : Builder :=
        { b1 with fragment_counter := b1.fragment_counter + 1,
                  groups := addItemToGroup b1.groups b.group_counter (.frag b1.fragment_counter),
                  fragments :=
                    b1.fragments ++ [⟨b1.fragment_counter, "Fragment " ++ toString b1.fragment_counter, []⟩],
                  state_stack := (b1.current_fragment, b1.current_group) :: b1.state_stack,
                  current_fragment := some b1.fragment_counter,
                  current_group := none } with hb2
      have hrun2 : runOpsE initBuilder (nestedEnters (n + 1)) = .ok b2 := by
        rw [hsplit, runOpsE_append, hrun]
        show runOpsE b [Op.enterGroup none, Op.enterFragment] = _
        simp only [runOpsE, applyOp, hgstep, hfstep, Except.map]
      have hbs : b1.state_stack = b.state_stack := rfl
      have hbne : b.state_stack ≠ [] := by
        intro h
        rw [h] at hlen
        simp at hlen
        omega
      have hlen2 : b2.state_stack.length = n + 1 := by
        show ((b1.current_fragment, b1.current_group) :: b1.state_stack).length = n + 1
        simp [hbs, hlen]
      have hsok2 : stackOK b2.state_stack := by
        show stackOK ((b1.current_fragment, b1.current_group) :: b1.state_stack)
        refine ⟨fun h => absurd (hbs ▸ h) hbne, fun _ => ?_, hbs ▸ hsok⟩
        rw [hcf1]
        simp
      exact ⟨b2, b1.fragment_counter, hrun2, rfl, rfl, hlen2, hsok2⟩

/-- C4 (as frozen) is false on the code: already for N = 2, the second of
two consecutive `enter_fragment()` calls from a fresh builder raises
`NoActiveGroup` (no group has been entered in the first fragment), so the
claimed sequence of 2 entries and 2 exits does not run to completion. -/
theorem C4_counterexample :
    runOpsE initBuilder
        (List.replicate 2 Op.enterFragment ++ List.replicate 2 Op.exitFragment)
      = .error .NoActiveGroup := rfl

/-- C4 (amended: each nested `enter_fragment()` after the first must be
preceded by an `enter_group()`, as the code requires): for every N ≥ 1, N
such nested fragment entries followed by N `exit_fragment()` calls succeed
and leave the context at top level — no active fragment, no active group,
empty context stack — and an (N+1)-th `exit_fragment()` then fails with
`EmptyContextStack`. -/
theorem C4_stack_discipline (N : Nat) (hN : 1 ≤ N) :
    ∃ b : Builder,
      runOpsE initBuilder (nestedEnters N ++ List.replicate N Op.exitFragment) = .ok b ∧
      b.current_fragment = none ∧ b.current_group = none ∧ b.state_stack = [] ∧
      (exit_fragment b).1 = .error .EmptyContextStack := by
  obtain ⟨b, f, hrun, hcf, hcg, hlen, hsok⟩ := nestedEnters_run N hN
  obtain ⟨m, hm⟩ : ∃ m, N = m + 1 := ⟨N - 1, by omega⟩
  subst hm
  obtain ⟨b', hrun', h1, h2, h3⟩ :=
    exits_run m b (by rw [hcf]; simp) hsok hlen
  refine ⟨b', ?_, h1, h2, h3, ?_⟩
  · rw [runOpsE_append, hrun]
    exact hrun'
  · rw [exit_fragment_nil b' h3]

/-- Witness for C4 at N = 2. -/
theorem C4_stack_discipline_witness :
    ∃ b : Builder,
      runOpsE initBuilder (nestedEnters 2 ++ List.replicate 2 Op.exitFragment) = .ok b ∧
      b.current_fragment = none ∧ b.current_group = none ∧ b.state_stack = [] ∧
      (exit_fragment b).1 = .error .EmptyContextStack :=
  C4_stack_discipline 2 (by norm_num)

/-! ## Reachability invariant -/

/-- A fragment object with id `f` is present in the arena `l`. -/
def fragExists (l : List FragmentData) (f : Nat) : Prop :=
  ∃ fd ∈ l, fd.id = f

/-- The fragment with id `f` is present and lists the group `g` among its
groups. -/
def fragMem (l : List FragmentData) (f g : Nat) : Prop :=
  ∃ fd ∈ l, fd.id = f ∧ g ∈ fd.groups

/-- A (fragment, group) context pair is coherent with the arena `l`: no
group without a fragment, and a named group belongs to the named fragment. -/
def entryOK (l : List FragmentData) (p : Option Nat × Option Nat) : Prop :=
  (p.1 = none → p.2 = none) ∧
  (∀ g, p.2 = some g → ∃ f, p.1 = some f ∧ fragMem l f g)

lemma fragExists_append (l l' : List FragmentData) (f : Nat) :
    fragExists l f → fragExists (l ++ l') f := by
  rintro ⟨fd, hmem, hid⟩
  exact ⟨fd, List.mem_append_left _ hmem, hid⟩

lemma fragMem_append (l l' : List FragmentData) (f g : Nat) :
    fragMem l f g → fragMem (l ++ l') f g := by
  rintro ⟨fd, hmem, hid, hg⟩
  exact ⟨fd, List.mem_append_left _ hmem, hid, hg⟩

lemma fragExists_addGroupToFragment (l : List FragmentData) (t gid f : Nat) :
    fragExists l f → fragExists (addGroupToFragment l t gid) f := by
  rintro ⟨fd, hmem, hid⟩
  refine ⟨if fd.id = t then { fd with groups := fd.groups ++ [gid] } else fd,
    List.mem_map_of_mem _ hmem, ?_⟩
  split <;> exact hid

lemma fragMem_addGroupToFragment (l : List FragmentData) (t gid f g : Nat) :
    fragMem l f g → fragMem (addGroupToFragment l t gid) f g := by
  rintro ⟨fd, hmem, hid, hg⟩
  refine ⟨if fd.id = t then { fd with groups := fd.groups ++ [gid] } else fd,
    List.mem_map_of_mem _ hmem, ?_⟩
  split <;> exact ⟨hid, by first | exact List.mem_append_left _ hg | exact hg⟩

lemma fragMem_addGroupToFragment_self (l : List FragmentData) (f gid : Nat) :
    fragExists l f → fragMem (addGroupToFragment l f gid) f gid := by
  rintro ⟨fd, hmem, hid⟩
  refine ⟨if fd.id = f then { fd with groups := fd.groups ++ [gid] } else fd,
    List.mem_map_of_mem _ hmem, ?_⟩
  rw [if_pos hid]
  exact ⟨hid, List.mem_append_right _ (List.mem_singleton_self _)⟩

lemma entryOK_mono (l l2 : List FragmentData)
    (h : ∀ f g, fragMem l f g → fragMem l2 f g) (p : Option Nat × Option Nat) :
    entryOK l p → entryOK l2 p := by
  rintro ⟨h1, h2⟩
  refine ⟨h1, fun g hg => ?_⟩
  obtain ⟨f, hf, hm⟩ := h2 g hg
  exact ⟨f, hf, h f g hm⟩

/-- The invariant every reachable builder state satisfies: the current
pointers, context stack and fragment arena are mutually coherent. -/
structure Inv (b : Builder) : Prop where
  cf_iff_stack : b.current_fragment = none ↔ b.state_stack = []
  stack_shape : stackOK b.state_stack
  current_ok : entryOK b.fragments (b.current_fragment, b.current_group)
  entries_ok : ∀ p ∈ b.state_stack, entryOK b.fragments p
  cf_exists : ∀ f, b.current_fragment = some f → fragExists b.fragments f
  entries_cf_exists : ∀ p ∈ b.state_stack, ∀ f, p.1 = some f → fragExists b.fragments f

lemma inv_initBuilder : Inv initBuilder := by
  refine ⟨by simp [initBuilder], trivial, ⟨fun _ => rfl, fun g hg => ?_⟩,
    by simp [initBuilder], by simp [initBuilder], by simp [initBuilder]⟩
  exact absurd hg (by simp [initBuilder])

lemma inv_applyOp (b : Builder) (op : Op) (h : Inv b) : Inv (applyOp b op).2 := by
  obtain ⟨h1, h2, h3, h4, h5, h6⟩ := h
  cases op with
  | addMessage xs =>
    cases hcf : b.current_fragment with
    | none =>
      simp only [applyOp, add_message_base b xs hcf]
      exact ⟨h1, h2, h3, h4, h5, h6⟩
    | some f =>
      cases hcg : b.current_group with
      | none =>
        simp only [applyOp, add_message_err b xs f hcf hcg]
        exact ⟨h1, h2, h3, h4, h5, h6⟩
      | some g =>
        simp only [applyOp, add_message_group b xs f g hcf hcg]
        exact ⟨h1, h2, h3, h4, h5, h6⟩
  | addState s =>
    cases hcf : b.current_fragment with
    | none =>
      simp only [applyOp, add_state_base b s hcf]
      exact ⟨h1, h2, h3, h4, h5, h6⟩
    | some f =>
      cases hcg : b.current_group with
      | none =>
        simp only [applyOp, add_state_err b s f hcf hcg]
        exact ⟨h1, h2, h3, h4, h5, h6⟩
      | some g =>
        simp only [applyOp, add_state_group b s f g hcf hcg]
        exact ⟨h1, h2, h3, h4, h5, h6⟩
  | enterGroup guard =>
    cases hcf : b.current_fragment with
    | none =>
      simp only [applyOp, enter_group_err b guard hcf]
      exact ⟨h1, h2, h3, h4, h5, h6⟩
    | some f =>
      simp only [applyOp, enter_group_some b guard f hcf]
      have hmono := fragMem_addGroupToFragment b.fragments f b.group_counter
      refine ⟨h1, h2, ⟨fun hnone => ?_, fun g hg => ?_⟩,
        fun p hp => entryOK_mono _ _ hmono p (h4 p hp),
        fun f' hf' => fragExists_addGroupToFragment _ _ _ _ (h5 f' hf'),
        fun p hp f' hf' => fragExists_addGroupToFragment _ _ _ _ (h6 p hp f' hf')⟩
      · rw [hcf] at hnone
        cases hnone
      · obtain rfl : b.group_counter = g := by
          cases hg
          rfl
        exact ⟨f, hcf, fragMem_addGroupToFragment_self _ _ _ (h5 f hcf)⟩
  | enterFragment =>
    cases hcf : b.current_fragment with
    | none =>
      have hstack : b.state_stack = [] := h1.mp hcf
      have hcg : b.current_group = none := h3.1 hcf
      simp only [applyOp, enter_fragment_base b hcf]
      have hmono := fragMem_append b.fragments
        [⟨b.fragment_counter, "Fragment " ++ toString b.fragment_counter, []⟩]
      constructor
      · simp [hcf, hcg, hstack]
      · rw [hcf, hcg, hstack]
        exact ⟨fun _ => rfl, fun hne => absurd rfl hne, trivial⟩
      · exact And.intro (fun hnone => by cases hnone) (fun g hg => by cases hg)
      · rw [hcf, hcg, hstack]
        rintro p hp
        obtain rfl : p = (none, none) := by simpa using hp
        exact And.intro (fun _ => rfl) (fun g hg => by cases hg)
      · rintro f' hf'
        obtain rfl : b.fragment_counter = f' := by cases hf'; rfl
        exact ⟨_, List.mem_append_right _ (List.mem_singleton_self _), rfl⟩
      · rw [hcf, hcg, hstack]
        rintro p hp f' hf'
        obtain rfl : p = (none, none) := by simpa using hp
        cases hf'
    | some f =>
      cases hcg : b.current_group with
      | none =>
        simp only [applyOp, enter_fragment_err b f hcf hcg]
        exact ⟨h1, h2, h3, h4, h5, h6⟩
      | some g =>
        have hstack : b.state_stack ≠ [] := by
          intro hs
          rw [h1.mpr hs] at hcf
          cases hcf
        simp only [applyOp, enter_fragment_group b f g hcf hcg]
        have hmono := fragMem_append b.fragments
          [⟨b.fragment_counter, "Fragment " ++ toString b.fragment_counter, []⟩]
        constructor
        · constructor
          · intro hn
            cases hn
          · intro hs
            cases hs
        · exact ⟨fun hs => absurd (by simpa using hs) hstack, fun _ => by rw [hcf]; simp, h2⟩
        · exact And.intro (fun hnone => by cases hnone) (fun g' hg' => by cases hg')
        · rintro p hp
          rcases List.mem_cons.mp hp with hp | hp
          · subst hp
            exact entryOK_mono _ _ (fun f' g' => hmono f' g') _ h3
          · exact entryOK_mono _ _ (fun f' g' => hmono f' g') _ (h4 p hp)
        · rintro f' hf'
          obtain rfl : b.fragment_counter = f' := by cases hf'; rfl
          exact ⟨_, List.mem_append_right _ (List.mem_singleton_self _), rfl⟩
        · rintro p hp f' hf'
          rcases List.mem_cons.mp hp with hp | hp
          · subst hp
            rw [hcf] at hf'
            obtain rfl : f = f' := by cases hf'; rfl
            exact fragExists_append _ _ _ (h5 f hcf)
          · exact fragExists_append _ _ _ (h6 p hp f' hf')
  | exitFragment =>
    cases hss : b.state_stack with
    | nil =>
      simp only [applyOp, exit_fragment_nil b hss]
      exact ⟨h1, h2, h3, h4, h5, h6⟩
    | cons p rest =>
      have hcf : ∃ f, b.current_fragment = some f := by
        cases hc : b.current_fragment with
        | none => rw [h1.mp hc] at hss; cases hss
        | some f => exact ⟨f, rfl⟩
      obtain ⟨f, hf⟩ := hcf
      rw [hss] at h2
      simp only [applyOp, exit_fragment_cons b p rest f hss hf]
      constructor
      · constructor
        · intro hp1
          by_contra hrest
          exact (h2.2.1 hrest) hp1
        · intro hrest
          rw [h2.1 hrest]
      · exact h2.2.2
      · exact h4 p (hss ▸ List.mem_cons_self p rest)
      · intro q hq
        exact h4 q (hss ▸ List.mem_cons_of_mem p hq)
      · intro f' hf'
        exact h6 p (hss ▸ List.mem_cons_self p rest) f' hf'
      · intro q hq f' hf'
        exact h6 q (hss ▸ List.mem_cons_of_mem p hq) f' hf'

lemma inv_runOps (ops : List Op) : ∀ b : Builder, Inv b → Inv (runOps b ops) := by
  induction ops with
  | nil => exact fun b h => h
  | cons op rest ih => exact fun b h => ih _ (inv_applyOp b op h)

lemma inv_reachable (b : Builder) (h : Reachable b) : Inv b := by
  obtain ⟨ops, rfl⟩ := h
  exact inv_runOps ops initBuilder inv_initBuilder

/-! ## Claims C8 and C2

For the "most recently entered, not yet exited" part of C8 we keep a
ghost trace of the open contexts, in the style of the ghost id traces
used for C6: a list of frames, innermost first, one per fragment that a
successful `enter_fragment()` has opened and no `exit_fragment()` has
closed yet.  A frame records the fragment's id as handed out at its
entry, together with the id of the group most recently entered in that
fragment (`none` before its first group entry).  Only the head frame is
ever updated, and exits pop it: the head is by construction the most
recently entered open fragment, and its group component the most
recently entered group of that fragment. -/

/-- One call's effect on the ghost open-context frames, driven by the
call's outcome in state `b`. -/
def framesStep (b : Builder) (op : Op) (fs : List (Nat × Option Nat)) :
    List (Nat × Option Nat) :=
  match op with
  | Op.enterFragment =>
    match (enter_fragment b).1 with
    | .ok fd => (fd.id, none) :: fs
    | .error _ => fs
  | Op.enterGroup guard =>
    match (enter_group b guard).1 with
    | .ok gd =>
      match fs with
      | [] => []
      | fr :: rest => (fr.1, some gd.id) :: rest
    | .error _ => fs
  | Op.exitFragment =>
    match (exit_fragment b).1 with
    | .ok _ => fs.tail
    | .error _ => fs
  | _ => fs

/-- The ghost frames after a call sequence from state `b` and frames `fs`. -/
def openFrames : Builder → List (Nat × Option Nat) → List Op → List (Nat × Option Nat)
  | _, fs, [] => fs
  | b, fs, op :: rest => openFrames (applyOp b op).2 (framesStep b op fs) rest

/-- The builder's whole active context, innermost first: the current
(fragment, group) pair followed by the saved pairs on the stack. -/
def contextChain (b : Builder) : List (Option Nat × Option Nat) :=
  (b.current_fragment, b.current_group) :: b.state_stack

/-- The context the ghost frames predict: each open frame as a (fragment,
group) pair, closed off by the top-level context `(none, none)`. -/
def framesChain (fs : List (Nat × Option Nat)) : List (Option Nat × Option Nat) :=
  fs.map (fun fr => (some fr.1, fr.2)) ++ [(none, none)]

lemma ctx_addMessage (b : Builder) (xs : List String) :
    contextChain (applyOp b (Op.addMessage xs)).2 = contextChain b := by
  cases hcf : b.current_fragment with
  | none => rw [applyOp, add_message_base b xs hcf]; rfl
  | some f =>
    cases hcg : b.current_group with
    | none => rw [applyOp, add_message_err b xs f hcf hcg]; rfl
    | some g => rw [applyOp, add_message_group b xs f g hcf hcg]; rfl

lemma ctx_addState (b : Builder) (s : String) :
    contextChain (applyOp b (Op.addState s)).2 = contextChain b := by
  cases hcf : b.current_fragment with
  | none => rw [applyOp, add_state_base b s hcf]; rfl
  | some f =>
    cases hcg : b.current_group with
    | none => rw [applyOp, add_state_err b s f hcf hcg]; rfl
    | some g => rw [applyOp, add_state_group b s f g hcf hcg]; rfl

lemma frames_step_preserves (b : Builder) (op : Op) (fs : List (Nat × Option Nat))
    (hInv : Inv b) (h2 : contextChain b = framesChain fs) :
    contextChain (applyOp b op).2 = framesChain (framesStep b op fs) := by
  cases op with
  | addMessage xs =>
    rw [ctx_addMessage b xs]
    exact h2
  | addState s =>
    rw [ctx_addState b s]
    exact h2
  | enterFragment =>
    cases hcf : b.current_fragment with
    | none =>
      have hstep : framesStep b Op.enterFragment fs = (b.fragment_counter, none) :: fs := by
        simp [framesStep, enter_fragment_base b hcf]
      have hctx : contextChain (applyOp b Op.enterFragment).2
          = (some b.fragment_counter, none) :: contextChain b := by
        rw [applyOp, enter_fragment_base b hcf]
        rfl
      rw [hctx, hstep]
      show _ = (some b.fragment_counter, none) :: framesChain fs
      rw [h2]
    | some f =>
      cases hcg : b.current_group with
      | none =>
        have hstep : framesStep b Op.enterFragment fs = fs := by
          simp [framesStep, enter_fragment_err b f hcf hcg]
        have hctx : contextChain (applyOp b Op.enterFragment).2 = contextChain b := by
          rw [applyOp, enter_fragment_err b f hcf hcg]
          rfl
        rw [hctx, hstep]
        exact h2
      | some g =>
        have hstep : framesStep b Op.enterFragment fs = (b.fragment_counter, none) :: fs := by
          simp [framesStep, enter_fragment_group b f g hcf hcg]
        have hctx : contextChain (applyOp b Op.enterFragment).2
            = (some b.fragment_counter, none) :: contextChain b := by
          rw [applyOp, enter_fragment_group b f g hcf hcg]
          rfl
        rw [hctx, hstep]
        show _ = (some b.fragment_counter, none) :: framesChain fs
        rw [h2]
  | enterGroup guard =>
    cases hcf : b.current_fragment with
    | none =>
      have hstep : framesStep b (Op.enterGroup guard) fs = fs := by
        simp [framesStep, enter_group_err b guard hcf]
      have hctx : contextChain (applyOp b (Op.enterGroup guard)).2 = contextChain b := by
        rw [applyOp, enter_group_err b guard hcf]
      rw [hctx, hstep]
      exact h2
    | some f =>
      cases fs with
      | nil =>
        exfalso
        have h2' : (b.current_fragment, b.current_group) :: b.state_stack
            = [((none : Option Nat), (none : Option Nat))] := h2
        injection h2' with hhead _
        rw [hcf] at hhead
        cases hhead
      | cons fr rest =>
        have h2' : (b.current_fragment, b.current_group) :: b.state_stack
            = (some fr.1, fr.2) :: (rest.map (fun fr => (some fr.1, fr.2)) ++ [(none, none)]) := h2
        injection h2' with hhead htail
        have hcf1 : b.current_fragment = some fr.1 := by
          have := congrArg Prod.fst hhead
          simpa using this
        have hstep : framesStep b (Op.enterGroup guard) (fr :: rest)
            = (fr.1, some b.group_counter) :: rest := by
          simp [framesStep, enter_group_some b guard f hcf]
        have hctx : contextChain (applyOp b (Op.enterGroup guard)).2
            = (b.current_fragment, some b.group_counter) :: b.state_stack := by
          rw [applyOp, enter_group_some b guard f hcf]
          rfl
        rw [hctx, hstep]
        show (b.current_fragment, some b.group_counter) :: b.state_stack
          = (some fr.1, some b.group_counter) :: (rest.map (fun fr => (some fr.1, fr.2)) ++ [(none, none)])
        rw [hcf1, htail]
  | exitFragment =>
    cases hss : b.state_stack with
    | nil =>
      have hstep : framesStep b Op.exitFragment fs = fs := by
        simp [framesStep, exit_fragment_nil b hss]
      have hctx : contextChain (applyOp b Op.exitFragment).2 = contextChain b := by
        rw [applyOp, exit_fragment_nil b hss]
      rw [hctx, hstep]
      exact h2
    | cons p rest =>
      obtain ⟨f, hf⟩ : ∃ f, b.current_fragment = some f := by
        cases hc : b.current_fragment with
        | none => rw [hInv.cf_iff_stack.mp hc] at hss; cases hss
        | some f => exact ⟨f, rfl⟩
      cases fs with
      | nil =>
        exfalso
        have h2' : (b.current_fragment, b.current_group) :: b.state_stack
            = [((none : Option Nat), (none : Option Nat))] := h2
        injection h2' with _ htail
        rw [hss] at htail
        cases htail
      | cons fr fs' =>
        have h2' : (b.current_fragment, b.current_group) :: b.state_stack
            = (some fr.1, fr.2) :: (fs'.map (fun fr => (some fr.1, fr.2)) ++ [(none, none)]) := h2
        injection h2' with _ htail
        have hstep : framesStep b Op.exitFragment (fr :: fs') = fs' := by
          simp [framesStep, exit_fragment_cons b p rest f hss hf]
        have hctx : contextChain (applyOp b Op.exitFragment).2 = b.state_stack := by
          rw [applyOp, exit_fragment_cons b p rest f hss hf]
          show (p.1, p.2) :: rest = b.state_stack
          rw [hss]
        rw [hctx, hstep, htail]
        rfl

lemma frames_track (ops : List Op) :
    ∀ (b : Builder) (fs : List (Nat × Option Nat)), Inv b →
      contextChain b = framesChain fs →
      contextChain (runOps b ops) = framesChain (openFrames b fs ops) := by
  induction ops with
  | nil => exact fun b fs _ h2 => h2
  | cons op rest ih =>
    intro b fs hInv h2
    exact ih _ _ (inv_applyOp b op hInv) (frames_step_preserves b op fs hInv h2)

/-- C8: in every reachable builder state the active context is consistent
with the nesting history: the current (fragment, group) pair followed by
the saved stack equals exactly the ghost chain of open frames — so the
current fragment is the most recently entered fragment not yet exited
(the head frame, `none` when no frame is open), the current group is the
most recently entered group of that fragment, and the saved pairs below
list the enclosing still-open fragments in entry order down to the
top-level `(none, none)`.  Moreover a non-empty stack implies a current
fragment (so `exit_fragment`, after its empty-stack check, never reads
the name of an absent current fragment), a current group never exists
without a current fragment, and the current group belongs to the current
fragment's group list.  At most one fragment and one group are active by
construction: the state holds a single optional reference for each. -/
theorem C8_active_context_consistency (ops : List Op) :
    ((runOps initBuilder ops).current_fragment, (runOps initBuilder ops).current_group)
        :: (runOps initBuilder ops).state_stack
      = (openFrames initBuilder [] ops).map (fun fr => (some fr.1, fr.2)) ++ [(none, none)] ∧
    (runOps initBuilder ops).current_fragment
      = (openFrames initBuilder [] ops).head?.map (fun fr => fr.1) ∧
    (runOps initBuilder ops).current_group
      = ((openFrames initBuilder [] ops).head?.bind fun fr => fr.2) ∧
    ((runOps initBuilder ops).state_stack ≠ [] → (runOps initBuilder ops).current_fragment ≠ none) ∧
    ((runOps initBuilder ops).current_fragment = none → (runOps initBuilder ops).current_group = none) ∧
    (∀ g, (runOps initBuilder ops).current_group = some g →
      ∃ f, (runOps initBuilder ops).current_fragment = some f ∧
        fragMem (runOps initBuilder ops).fragments f g) := by
  have h := inv_runOps ops initBuilder inv_initBuilder
  have hchain : contextChain (runOps initBuilder ops)
      = framesChain (openFrames initBuilder [] ops) :=
    frames_track ops initBuilder [] inv_initBuilder rfl
  refine ⟨hchain, ?_, ?_, fun hs hc => hs (h.cf_iff_stack.mp hc), h.current_ok.1,
    fun g hg => h.current_ok.2 g hg⟩
  · cases hfs : openFrames initBuilder [] ops with
    | nil =>
      rw [hfs] at hchain
      have : (runOps initBuilder ops).current_fragment = none := by
        have h' : ((runOps initBuilder ops).current_fragment, (runOps initBuilder ops).current_group)
            :: (runOps initBuilder ops).state_stack = [((none : Option Nat), (none : Option Nat))] := hchain
        injection h' with hhead _
        simpa using congrArg Prod.fst hhead
      rw [this]
      rfl
    | cons fr fs' =>
      rw [hfs] at hchain
      have h' : ((runOps initBuilder ops).current_fragment, (runOps initBuilder ops).current_group)
          :: (runOps initBuilder ops).state_stack
          = (some fr.1, fr.2) :: (fs'.map (fun fr => (some fr.1, fr.2)) ++ [(none, none)]) := hchain
      injection h' with hhead _
      have : (runOps initBuilder ops).current_fragment = some fr.1 := by
        simpa using congrArg Prod.fst hhead
      rw [this]
      rfl
  · cases hfs : openFrames initBuilder [] ops with
    | nil =>
      rw [hfs] at hchain
      have h' : ((runOps initBuilder ops).current_fragment, (runOps initBuilder ops).current_group)
          :: (runOps initBuilder ops).state_stack = [((none : Option Nat), (none : Option Nat))] := hchain
      injection h' with hhead _
      have : (runOps initBuilder ops).current_group = none := by
        simpa using congrArg Prod.snd hhead
      rw [this]
      rfl
    | cons fr fs' =>
      rw [hfs] at hchain
      have h' : ((runOps initBuilder ops).current_fragment, (runOps initBuilder ops).current_group)
          :: (runOps initBuilder ops).state_stack
          = (some fr.1, fr.2) :: (fs'.map (fun fr => (some fr.1, fr.2)) ++ [(none, none)]) := hchain
      injection h' with hhead _
      have : (runOps initBuilder ops).current_group = fr.2 := by
        simpa using congrArg Prod.snd hhead
      rw [this]
      rfl

/-- Witness for C8 on the concrete reachable state after entering a
fragment and a group: one open frame (fragment 1, group 1) over the
top-level context. -/
theorem C8_witness :
    ((runOps initBuilder [Op.enterFragment, Op.enterGroup (some "x > 5")]).current_fragment,
        (runOps initBuilder [Op.enterFragment, Op.enterGroup (some "x > 5")]).current_group)
        :: (runOps initBuilder [Op.enterFragment, Op.enterGroup (some "x > 5")]).state_stack
      = (openFrames initBuilder [] [Op.enterFragment, Op.enterGroup (some "x > 5")]).map
          (fun fr => (some fr.1, fr.2)) ++ [(none, none)] ∧
    (runOps initBuilder [Op.enterFragment, Op.enterGroup (some "x > 5")]).current_fragment
      = (openFrames initBuilder [] [Op.enterFragment, Op.enterGroup (some "x > 5")]).head?.map
          (fun fr => fr.1) ∧
    (runOps initBuilder [Op.enterFragment, Op.enterGroup (some "x > 5")]).current_group
      = ((openFrames initBuilder [] [Op.enterFragment, Op.enterGroup (some "x > 5")]).head?.bind
          fun fr => fr.2) ∧
    ((runOps initBuilder [Op.enterFragment, Op.enterGroup (some "x > 5")]).state_stack ≠ [] →
      (runOps initBuilder [Op.enterFragment, Op.enterGroup (some "x > 5")]).current_fragment ≠ none) ∧
    ((runOps initBuilder [Op.enterFragment, Op.enterGroup (some "x > 5")]).current_fragment = none →
      (runOps initBuilder [Op.enterFragment, Op.enterGroup (some "x > 5")]).current_group = none) ∧
    (∀ g, (runOps initBuilder [Op.enterFragment, Op.enterGroup (some "x > 5")]).current_group = some g →
      ∃ f, (runOps initBuilder [Op.enterFragment, Op.enterGroup (some "x > 5")]).current_fragment = some f ∧
        fragMem (runOps initBuilder [Op.enterFragment, Op.enterGroup (some "x > 5")]).fragments f g) :=
  C8_active_context_consistency [Op.enterFragment, Op.enterGroup (some "x > 5")]

/-- C2: in every reachable builder state, a builder call that raises an
error leaves the tree model exactly as it was before the call: the base
list, the group arena (hence every group's items), the fragment arena
(hence every fragment's groups), the current fragment, the current group
and the context stack are unchanged, and no half-built node is attached
anywhere. -/
theorem C2_error_preserves_model (ops : List Op) (op : Op) (e : BuilderError)
    (herr : (applyOp (runOps initBuilder ops) op).1 = .error e) :
    (applyOp (runOps initBuilder ops) op).2.base = (runOps initBuilder ops).base ∧
    (applyOp (runOps initBuilder ops) op).2.groups = (runOps initBuilder ops).groups ∧
    (applyOp (runOps initBuilder ops) op).2.fragments = (runOps initBuilder ops).fragments ∧
    (applyOp (runOps initBuilder ops) op).2.current_fragment = (runOps initBuilder ops).current_fragment ∧
    (applyOp (runOps initBuilder ops) op).2.current_group = (runOps initBuilder ops).current_group ∧
    (applyOp (runOps initBuilder ops) op).2.state_stack = (runOps initBuilder ops).state_stack := by
  set b := runOps initBuilder ops with hb
  have hInv : Inv b := inv_runOps ops initBuilder inv_initBuilder
  cases op with
  | addMessage xs =>
    cases hcf : b.current_fragment with
    | none =>
      rw [applyOp, add_message_base b xs hcf] at herr
      simp [Except.map] at herr
    | some f =>
      cases hcg : b.current_group with
      | none =>
        simp [applyOp, add_message_err b xs f hcf hcg, hcf, hcg]
      | some g =>
        rw [applyOp, add_message_group b xs f g hcf hcg] at herr
        simp [Except.map] at herr
  | addState s =>
    cases hcf : b.current_fragment with
    | none =>
      rw [applyOp, add_state_base b s hcf] at herr
      simp [Except.map] at herr
    | some f =>
      cases hcg : b.current_group with
      | none =>
        simp [applyOp, add_state_err b s f hcf hcg, hcf, hcg]
      | some g =>
        rw [applyOp, add_state_group b s f g hcf hcg] at herr
        simp [Except.map] at herr
  | enterFragment =>
    cases hcf : b.current_fragment with
    | none =>
      rw [applyOp, enter_fragment_base b hcf] at herr
      simp [Except.map] at herr
    | some f =>
      cases hcg : b.current_group with
      | none =>
        simp [applyOp, enter_fragment_err b f hcf hcg, hcf, hcg]
      | some g =>
        rw [applyOp, enter_fragment_group b f g hcf hcg] at herr
        simp [Except.map] at herr
  | enterGroup guard =>
    cases hcf : b.current_fragment with
    | none =>
      simp [applyOp, enter_group_err b guard hcf, hcf]
    | some f =>
      rw [applyOp, enter_group_some b guard f hcf] at herr
      simp [Except.map] at herr
  | exitFragment =>
    cases hss : b.state_stack with
    | nil =>
      simp [applyOp, exit_fragment_nil b hss, hss]
    | cons p rest =>
      obtain ⟨f, hf⟩ : ∃ f, b.current_fragment = some f := by
        cases hc : b.current_fragment with
        | none => rw [hInv.cf_iff_stack.mp hc] at hss; cases hss
        | some f => exact ⟨f, rfl⟩
      rw [applyOp, exit_fragment_cons b p rest f hss hf] at herr
      cases herr

/-- Witness for C2: `add_message` inside a fragment with no active group
raises and leaves every model component untouched. -/
theorem C2_witness :
    (applyOp (runOps initBuilder [Op.enterFragment]) (Op.addMessage ["x"])).2.base
        = (runOps initBuilder [Op.enterFragment]).base ∧
    (applyOp (runOps initBuilder [Op.enterFragment]) (Op.addMessage ["x"])).2.groups
        = (runOps initBuilder [Op.enterFragment]).groups ∧
    (applyOp (runOps initBuilder [Op.enterFragment]) (Op.addMessage ["x"])).2.fragments
        = (runOps initBuilder [Op.enterFragment]).fragments ∧
    (applyOp (runOps initBuilder [Op.enterFragment]) (Op.addMessage ["x"])).2.current_fragment
        = (runOps initBuilder [Op.enterFragment]).current_fragment ∧
    (applyOp (runOps initBuilder [Op.enterFragment]) (Op.addMessage ["x"])).2.current_group
        = (runOps initBuilder [Op.enterFragment]).current_group ∧
    (applyOp (runOps initBuilder [Op.enterFragment]) (Op.addMessage ["x"])).2.state_stack
        = (runOps initBuilder [Op.enterFragment]).state_stack :=
  C2_error_preserves_model [Op.enterFragment] (Op.addMessage ["x"]) .NoActiveGroup rfl

/-! ## Dereferencing after arena updates -/

lemma find?_addItemToGroup (l : List GroupData) (t : Nat) (it : Item) (j : Nat) :
    (addItemToGroup l t it).find? (fun gd => gd.id = j)
      = (l.find? fun gd => gd.id = j).map
          fun gd => if gd.id = t then { gd with items := gd.items ++ [it] } else gd := by
  induction l with
  | nil => rfl
  | cons hd tl ih =>
    have hid : (if hd.id = t then { hd with items := hd.items ++ [it] } else hd).id = hd.id := by
      split <;> rfl
    by_cases h : hd.id = j
    · rw [addItemToGroup, List.map_cons,
        List.find?_cons_of_pos _ (by simpa [hid] using h),
        List.find?_cons_of_pos _ (by simpa using h)]
      rfl
    · rw [addItemToGroup, List.map_cons,
        List.find?_cons_of_neg _ (by simpa [hid] using h),
        List.find?_cons_of_neg _ (by simpa using h)]
      exact ih

lemma findGroup_addItemToGroup_self (l : List GroupData) (g : Nat) (it : Item) :
    (addItemToGroup l g it).find? (fun gd => gd.id = g)
      = (l.find? fun gd => gd.id = g).map fun gd => { gd with items := gd.items ++ [it] } := by
  rw [find?_addItemToGroup]
  cases hf : l.find? fun gd => gd.id = g with
  | none => rfl
  | some gd =>
    have : gd.id = g := by simpa using List.find?_some hf
    simp [this]

lemma find?_addGroupToFragment (l : List FragmentData) (t gid : Nat) (j : Nat) :
    (addGroupToFragment l t gid).find? (fun fd => fd.id = j)
      = (l.find? fun fd => fd.id = j).map
          fun fd => if fd.id = t then { fd with groups := fd.groups ++ [gid] } else fd := by
  induction l with
  | nil => rfl
  | cons hd tl ih =>
    have hid : (if hd.id = t then { hd with groups := hd.groups ++ [gid] } else hd).id = hd.id := by
      split <;> rfl
    by_cases h : hd.id = j
    · rw [addGroupToFragment, List.map_cons,
        List.find?_cons_of_pos _ (by simpa [hid] using h),
        List.find?_cons_of_pos _ (by simpa using h)]
      rfl
    · rw [addGroupToFragment, List.map_cons,
        List.find?_cons_of_neg _ (by simpa [hid] using h),
        List.find?_cons_of_neg _ (by simpa using h)]
      exact ih

lemma findFragment_addGroupToFragment_self (l : List FragmentData) (f gid : Nat) :
    (addGroupToFragment l f gid).find? (fun fd => fd.id = f)
      = (l.find? fun fd => fd.id = f).map fun fd => { fd with groups := fd.groups ++ [gid] } := by
  rw [find?_addGroupToFragment]
  cases hf : l.find? fun fd => fd.id = f with
  | none => rfl
  | some fd =>
    have : fd.id = f := by simpa using List.find?_some hf
    simp [this]

/-! ## Claim C5: context restoration -/

/-- C5: from every builder state in which `enter_fragment()` succeeds, the
sequence `enter_fragment(); enter_group(guard); exit_fragment()` runs with
no error, and afterwards the current fragment and the current group are
exactly what they were before the `enter_fragment()` call. -/
theorem C5_context_restoration (b : Builder) (guard : Option String) (fd : FragmentData)
    (h : (enter_fragment b).1 = .ok fd) :
    (∃ gd, (enter_group (enter_fragment b).2 guard).1 = .ok gd) ∧
    (exit_fragment (enter_group (enter_fragment b).2 guard).2).1 = .ok () ∧
    (exit_fragment (enter_group (enter_fragment b).2 guard).2).2.current_fragment
      = b.current_fragment ∧
    (exit_fragment (enter_group (enter_fragment b).2 guard).2).2.current_group
      = b.current_group := by
  cases hcf : b.current_fragment with
  | none =>
    have h1 := enter_fragment_base b hcf
    set b1 := (enter_fragment b).2 with hb1
    have hcf1 : b1.current_fragment = some b.fragment_counter := by rw [hb1, h1]
    have hstack1 : b1.state_stack = (b.current_fragment, b.current_group) :: b.state_stack := by
      rw [hb1, h1]
    have h2 := enter_group_some b1 guard b.fragment_counter hcf1
    set b2 := (enter_group b1 guard).2 with hb2
    have hcf2 : b2.current_fragment = some b.fragment_counter := by
      rw [hb2, h2]
      exact hcf1
    have hstack2 : b2.state_stack = (b.current_fragment, b.current_group) :: b.state_stack := by
      rw [hb2, h2]
      exact hstack1
    have h3 := exit_fragment_cons b2 (b.current_fragment, b.current_group) b.state_stack
      b.fragment_counter hstack2 hcf2
    exact ⟨⟨_, by rw [h2]⟩, by rw [h3], by rw [h3]; exact hcf, by rw [h3]⟩
  | some f =>
    cases hcg : b.current_group with
    | none =>
      rw [enter_fragment_err b f hcf hcg] at h
      cases h
    | some g =>
      have h1 := enter_fragment_group b f g hcf hcg
      set b1 := (enter_fragment b).2 with hb1
      have hcf1 : b1.current_fragment = some b.fragment_counter := by rw [hb1, h1]
      have hstack1 : b1.state_stack = (b.current_fragment, b.current_group) :: b.state_stack := by
        rw [hb1, h1]
      have h2 := enter_group_some b1 guard b.fragment_counter hcf1
      set b2 := (enter_group b1 guard).2 with hb2
      have hcf2 : b2.current_fragment = some b.fragment_counter := by
        rw [hb2, h2]
        exact hcf1
      have hstack2 : b2.state_stack = (b.current_fragment, b.current_group) :: b.state_stack := by
        rw [hb2, h2]
        exact hstack1
      have h3 := exit_fragment_cons b2 (b.current_fragment, b.current_group) b.state_stack
        b.fragment_counter hstack2 hcf2
      exact ⟨⟨_, by rw [h2]⟩, by rw [h3], by rw [h3]; exact hcf, by rw [h3]; exact hcg⟩

/-- Witness for C5 from the fresh builder. -/
theorem C5_witness :
    (∃ gd, (enter_group (enter_fragment initBuilder).2 (some "x > 5")).1 = .ok gd) ∧
    (exit_fragment (enter_group (enter_fragment initBuilder).2 (some "x > 5")).2).1 = .ok () ∧
    (exit_fragment (enter_group (enter_fragment initBuilder).2 (some "x > 5")).2).2.current_fragment
      = initBuilder.current_fragment ∧
    (exit_fragment (enter_group (enter_fragment initBuilder).2 (some "x > 5")).2).2.current_group
      = initBuilder.current_group :=
  C5_context_restoration initBuilder (some "x > 5") ⟨1, "Fragment 1", []⟩ rfl

/-! ## Claim C9: a fragment may be exited with no group -/

/-- C9: `enter_fragment()` directly followed by `exit_fragment()` (with
no `enter_group()` in between) is not rejected: the exit succeeds, the
previous (fragment, group) context is restored, and the created Fragment
stays attached to its parent container — the base when no fragment was
active, else the then-current group's items — with an empty group list. -/
theorem C9_empty_fragment_not_rejected (b : Builder) (fd : FragmentData)
    (h : (enter_fragment b).1 = .ok fd) :
    (exit_fragment (enter_fragment b).2).1 = .ok () ∧
    (exit_fragment (enter_fragment b).2).2.current_fragment = b.current_fragment ∧
    (exit_fragment (enter_fragment b).2).2.current_group = b.current_group ∧
    fd.groups = [] ∧
    fd ∈ (exit_fragment (enter_fragment b).2).2.fragments ∧
    (b.current_fragment = none →
      (exit_fragment (enter_fragment b).2).2.base = b.base ++ [.frag fd.id]) ∧
    (∀ f g, b.current_fragment = some f → b.current_group = some g →
      findGroup (exit_fragment (enter_fragment b).2).2 g
        = (findGroup b g).map fun gd => { gd with items := gd.items ++ [.frag fd.id] }) := by
  cases hcf : b.current_fragment with
  | none =>
    have h1 := enter_fragment_base b hcf
    have hfd : fd = ⟨b.fragment_counter, "Fragment " ++ toString b.fragment_counter, []⟩ := by
      rw [h1] at h
      cases h
      rfl
    subst hfd
    set b1 := (enter_fragment b).2 with hb1
    have hcf1 : b1.current_fragment = some b.fragment_counter := by rw [hb1, h1]
    have hstack1 : b1.state_stack = (b.current_fragment, b.current_group) :: b.state_stack := by
      rw [hb1, h1]
    have h3 := exit_fragment_cons b1 (b.current_fragment, b.current_group) b.state_stack
      b.fragment_counter hstack1 hcf1
    refine ⟨by rw [h3], by rw [h3]; exact hcf, by rw [h3], rfl, ?_, fun _ => by rw [h3, hb1, h1], ?_⟩
    · have : (exit_fragment b1).2.fragments = b1.fragments := by rw [h3]
      rw [this, hb1, h1]
      exact List.mem_append_right _ (List.mem_singleton_self _)
    · intro f g hf _
      cases hf
  | some f0 =>
    cases hcg : b.current_group with
    | none =>
      rw [enter_fragment_err b f0 hcf hcg] at h
      cases h
    | some g0 =>
      have h1 := enter_fragment_group b f0 g0 hcf hcg
      have hfd : fd = ⟨b.fragment_counter, "Fragment " ++ toString b.fragment_counter, []⟩ := by
        rw [h1] at h
        cases h
        rfl
      subst hfd
      set b1 := (enter_fragment b).2 with hb1
      have hcf1 : b1.current_fragment = some b.fragment_counter := by rw [hb1, h1]
      have hstack1 : b1.state_stack = (b.current_fragment, b.current_group) :: b.state_stack := by
        rw [hb1, h1]
      have h3 := exit_fragment_cons b1 (b.current_fragment, b.current_group) b.state_stack
        b.fragment_counter hstack1 hcf1
      refine ⟨by rw [h3], by rw [h3]; exact hcf, by rw [h3]; exact hcg, rfl, ?_, ?_, ?_⟩
      · have : (exit_fragment b1).2.fragments = b1.fragments := by rw [h3]
        rw [this, hb1, h1]
        exact List.mem_append_right _ (List.mem_singleton_self _)
      · intro hnone
        cases hnone
      · intro f g hf hg
        obtain rfl : g0 = g := Option.some.inj hg
        have hgroups : (exit_fragment b1).2.groups
            = addItemToGroup b.groups g0 (.frag b.fragment_counter) := by
          rw [h3, hb1, h1]
        show (exit_fragment b1).2.groups.find? (fun gd => gd.id = g0) = _
        rw [hgroups]
        exact findGroup_addItemToGroup_self b.groups g0 (.frag b.fragment_counter)

/-- Witness for C9 from the fresh builder: the exited fragment sits in
the base with no groups. -/
theorem C9_witness :
    (exit_fragment (enter_fragment initBuilder).2).1 = .ok () ∧
    (exit_fragment (enter_fragment initBuilder).2).2.current_fragment
      = initBuilder.current_fragment ∧
    (exit_fragment (enter_fragment initBuilder).2).2.current_group
      = initBuilder.current_group ∧
    (⟨1, "Fragment 1", []⟩ : FragmentData).groups = [] ∧
    (⟨1, "Fragment 1", []⟩ : FragmentData) ∈ (exit_fragment (enter_fragment initBuilder).2).2.fragments ∧
    (initBuilder.current_fragment = none →
      (exit_fragment (enter_fragment initBuilder).2).2.base
        = initBuilder.base ++ [.frag (⟨1, "Fragment 1", []⟩ : FragmentData).id]) ∧
    (∀ f g, initBuilder.current_fragment = some f → initBuilder.current_group = some g →
      findGroup (exit_fragment (enter_fragment initBuilder).2).2 g
        = (findGroup initBuilder g).map
            fun gd => { gd with items := gd.items ++ [.frag (⟨1, "Fragment 1", []⟩ : FragmentData).id] }) :=
  C9_empty_fragment_not_rejected initBuilder ⟨1, "Fragment 1", []⟩ rfl

/-! ## Claim C3: event and nested-fragment placement -/

/-- C3: `add_message`, `add_state` and `enter_fragment` create their node
with the next id of the corresponding counter, attach it to the root
sequence when no fragment is active and to the current group's items when
a group is active, fail with `NoActiveGroup` exactly when a fragment is
active but no group is, and on success return the node they created. -/
theorem C3_event_placement (b : Builder) (xs : List String) (s : String) :
    ((add_message b xs).1 = .error .NoActiveGroup
      ↔ b.current_fragment ≠ none ∧ b.current_group = none) ∧
    ((add_state b s).1 = .error .NoActiveGroup
      ↔ b.current_fragment ≠ none ∧ b.current_group = none) ∧
    ((enter_fragment b).1 = .error .NoActiveGroup
      ↔ b.current_fragment ≠ none ∧ b.current_group = none) ∧
    (b.current_fragment = none →
      (add_message b xs).1 = .ok ⟨b.event_counter, xs⟩ ∧
      (add_message b xs).2.base = b.base ++ [.msg ⟨b.event_counter, xs⟩] ∧
      (add_state b s).1 = .ok ⟨b.event_counter, s⟩ ∧
      (add_state b s).2.base = b.base ++ [.state ⟨b.event_counter, s⟩] ∧
      (enter_fragment b).1
        = .ok ⟨b.fragment_counter, "Fragment " ++ toString b.fragment_counter, []⟩ ∧
      (enter_fragment b).2.base = b.base ++ [.frag b.fragment_counter]) ∧
    (∀ f g, b.current_fragment = some f → b.current_group = some g →
      (add_message b xs).1 = .ok ⟨b.event_counter, xs⟩ ∧
      findGroup (add_message b xs).2 g
        = (findGroup b g).map (fun gd => { gd with items := gd.items ++ [.msg ⟨b.event_counter, xs⟩] }) ∧
      (add_message b xs).2.base = b.base ∧
      (add_state b s).1 = .ok ⟨b.event_counter, s⟩ ∧
      findGroup (add_state b s).2 g
        = (findGroup b g).map (fun gd => { gd with items := gd.items ++ [.state ⟨b.event_counter, s⟩] }) ∧
      (add_state b s).2.base = b.base ∧
      (enter_fragment b).1
        = .ok ⟨b.fragment_counter, "Fragment " ++ toString b.fragment_counter, []⟩ ∧
      findGroup (enter_fragment b).2 g
        = (findGroup b g).map (fun gd => { gd with items := gd.items ++ [.frag b.fragment_counter] }) ∧
      (enter_fragment b).2.base = b.base) := by
  cases hcf : b.current_fragment with
  | none =>
    have h1 := add_message_base b xs hcf
    have h2 := add_state_base b s hcf
    have h3 := enter_fragment_base b hcf
    refine ⟨by simp [h1], by simp [h2], by simp [h3], ?_, ?_⟩
    · exact fun _ => ⟨by rw [h1], by rw [h1], by rw [h2], by rw [h2], by rw [h3], by rw [h3]⟩
    · intro f g hf _
      cases hf
  | some f0 =>
    cases hcg : b.current_group with
    | none =>
      have h1 := add_message_err b xs f0 hcf hcg
      have h2 := add_state_err b s f0 hcf hcg
      have h3 := enter_fragment_err b f0 hcf hcg
      refine ⟨by simp [h1], by simp [h2], by simp [h3], ?_, ?_⟩
      · intro hnone
        cases hnone
      · intro f g hf hg
        cases hg
    | some g0 =>
      have h1 := add_message_group b xs f0 g0 hcf hcg
      have h2 := add_state_group b s f0 g0 hcf hcg
      have h3 := enter_fragment_group b f0 g0 hcf hcg
      refine ⟨by simp [h1], by simp [h2], by simp [h3], ?_, ?_⟩
      · intro hnone
        cases hnone
      intro f g hf hg
      obtain rfl : g0 = g := Option.some.inj hg
      have hm : (add_message b xs).2.groups
          = addItemToGroup b.groups g0 (.msg ⟨b.event_counter, xs⟩) := by rw [h1]
      have hs : (add_state b s).2.groups
          = addItemToGroup b.groups g0 (.state ⟨b.event_counter, s⟩) := by rw [h2]
      have hf3 : (enter_fragment b).2.groups
          = addItemToGroup b.groups g0 (.frag b.fragment_counter) := by rw [h3]
      refine ⟨by rw [h1], ?_, by rw [h1], by rw [h2], ?_, by rw [h2], by rw [h3], ?_, by rw [h3]⟩
      · show (add_message b xs).2.groups.find? (fun gd => gd.id = g0) = _
        rw [hm]
        exact findGroup_addItemToGroup_self b.groups g0 _
      · show (add_state b s).2.groups.find? (fun gd => gd.id = g0) = _
        rw [hs]
        exact findGroup_addItemToGroup_self b.groups g0 _
      · show (enter_fragment b).2.groups.find? (fun gd => gd.id = g0) = _
        rw [hf3]
        exact findGroup_addItemToGroup_self b.groups g0 _

/-- Witness for C3 at a state with an active fragment and group. -/
theorem C3_witness :
    ((add_message (runOps initBuilder [Op.enterFragment, Op.enterGroup none]) ["x"]).1
        = .ok ⟨1, ["x"]⟩ ∧
      findGroup (add_message (runOps initBuilder [Op.enterFragment, Op.enterGroup none]) ["x"]).2 1
        = some ⟨1, "Group 1", none, [.msg ⟨1, ["x"]⟩]⟩) ∧
    ((add_message initBuilder ["y"]).1 = .ok ⟨1, ["y"]⟩ ∧
      (add_message initBuilder ["y"]).2.base = [.msg ⟨1, ["y"]⟩]) := by
  constructor
  · constructor
    · exact ((C3_event_placement (runOps initBuilder [Op.enterFragment, Op.enterGroup none])
        ["x"] "s").2.2.2.2 1 1 rfl rfl).1
    · have := ((C3_event_placement (runOps initBuilder [Op.enterFragment, Op.enterGroup none])
        ["x"] "s").2.2.2.2 1 1 rfl rfl).2.1
      rw [this]
      rfl
  · constructor
    · exact ((C3_event_placement initBuilder ["y"] "s").2.2.2.1 rfl).1
    · have := ((C3_event_placement initBuilder ["y"] "s").2.2.2.1 rfl).2.1
      rw [this]
      rfl

/-! ## Claim C7: enter_group semantics and guard rendering -/

/-- C7: `enter_group(guard)` fails with `NoActiveFragment` exactly when no
fragment is active (and then changes nothing); otherwise it creates a
Group carrying the next group id and exactly the given guard, appends it
to the current fragment's group list, makes it current and returns it.
The renderer's branch header for a group created without a guard carries
no guard text, and for a guarded group it reproduces the exact label. -/
theorem C7_enter_group_semantics (b : Builder) (guard : Option String) :
    ((enter_group b guard).1 = .error .NoActiveFragment ↔ b.current_fragment = none) ∧
    (b.current_fragment = none → (enter_group b guard).2 = b) ∧
    (∀ f, b.current_fragment = some f →
      (enter_group b guard).1
        = .ok ⟨b.group_counter, "Group " ++ toString b.group_counter, guard, []⟩ ∧
      (enter_group b guard).2.current_group = some b.group_counter ∧
      (enter_group b guard).2.groups
        = b.groups ++ [⟨b.group_counter, "Group " ++ toString b.group_counter, guard, []⟩] ∧
      findFragment (enter_group b guard).2 f
        = (findFragment b f).map (fun fd => { fd with groups := fd.groups ++ [b.group_counter] })) ∧
    (∀ ind, guard = none →
      groupHeaderLine ind ⟨b.group_counter, "Group " ++ toString b.group_counter, guard, []⟩
        = String.join (List.replicate ind "  ") ++ "  * "
            ++ ("Group " ++ toString b.group_counter) ++ " (Group):") ∧
    (∀ ind s2, guard = some s2 →
      groupHeaderLine ind ⟨b.group_counter, "Group " ++ toString b.group_counter, guard, []⟩
        = String.join (List.replicate ind "  ") ++ "  * "
            ++ ("Group " ++ toString b.group_counter)
            ++ (" [Guard: " ++ s2 ++ "]") ++ " (Group):") := by
  refine ⟨?_, ?_, ?_, ?_, ?_⟩
  · cases hcf : b.current_fragment with
    | none => simp [enter_group_err b guard hcf]
    | some f => simp [enter_group_some b guard f hcf]
  · intro hcf
    rw [enter_group_err b guard hcf]
  · intro f hcf
    have h1 := enter_group_some b guard f hcf
    refine ⟨by rw [h1], by rw [h1], by rw [h1], ?_⟩
    have hfr : (enter_group b guard).2.fragments
        = addGroupToFragment b.fragments f b.group_counter := by rw [h1]
    show (enter_group b guard).2.fragments.find? (fun fd => fd.id = f) = _
    rw [hfr]
    exact findFragment_addGroupToFragment_self b.fragments f b.group_counter
  · intro ind hguard
    subst hguard
    simp [groupHeaderLine, guardStr]
  · intro ind s2 hguard
    subst hguard
    simp [groupHeaderLine, guardStr]

/-- Witness for C7 at a state with an active fragment, both guarded and
unguarded header rendering included. -/
theorem C7_witness :
    ((enter_group (runOps initBuilder [Op.enterFragment]) (some "x > 5")).1
      = .ok ⟨1, "Group 1", some "x > 5", []⟩) ∧
    (enter_group (runOps initBuilder [Op.enterFragment]) (some "x > 5")).2.current_group = some 1 ∧
    ((enter_group initBuilder (some "x > 5")).1 = .error .NoActiveFragment) ∧
    groupHeaderLine 0 ⟨1, "Group 1", none, []⟩ = "  * Group 1 (Group):" ∧
    groupHeaderLine 0 ⟨1, "Group 1", some "x > 5", []⟩
      = "  * Group 1 [Guard: x > 5] (Group):" := by
  refine ⟨?_, ?_, ?_, by rfl, by rfl⟩
  · have := ((C7_enter_group_semantics (runOps initBuilder [Op.enterFragment])
      (some "x > 5")).2.2.1 1 rfl).1
    rw [this]
    rfl
  · exact ((C7_enter_group_semantics (runOps initBuilder [Op.enterFragment])
      (some "x > 5")).2.2.1 1 rfl).2.1
  · exact (C7_enter_group_semantics initBuilder (some "x > 5")).1.mpr rfl

/-! ## Claim C6: id assignment is 1, 2, 3, … per kind -/

lemma applyOp_event_counter (b : Builder) (op : Op) :
    (applyOp b op).2.event_counter = b.event_counter + (assignedEventIds b op).length := by
  cases op with
  | addMessage xs =>
    cases hcf : b.current_fragment with
    | none => rw [applyOp, add_message_base b xs hcf]; rfl
    | some f =>
      cases hcg : b.current_group with
      | none => rw [applyOp, add_message_err b xs f hcf hcg]; rfl
      | some g => rw [applyOp, add_message_group b xs f g hcf hcg]; rfl
  | addState s =>
    cases hcf : b.current_fragment with
    | none => rw [applyOp, add_state_base b s hcf]; rfl
    | some f =>
      cases hcg : b.current_group with
      | none => rw [applyOp, add_state_err b s f hcf hcg]; rfl
      | some g => rw [applyOp, add_state_group b s f g hcf hcg]; rfl
  | enterFragment =>
    cases hcf : b.current_fragment with
    | none => rw [applyOp, enter_fragment_base b hcf]; rfl
    | some f =>
      cases hcg : b.current_group with
      | none => rw [applyOp, enter_fragment_err b f hcf hcg]; rfl
      | some g => rw [applyOp, enter_fragment_group b f g hcf hcg]; rfl
  | enterGroup guard =>
    cases hcf : b.current_fragment with
    | none => rw [applyOp, enter_group_err b guard hcf]; rfl
    | some f => rw [applyOp, enter_group_some b guard f hcf]; rfl
  | exitFragment =>
    cases hss : b.state_stack with
    | nil => rw [applyOp, exit_fragment_nil b hss]; rfl
    | cons p rest =>
      cases hcf : b.current_fragment with
      | none => simp [applyOp, exit_fragment, hss, hcf, assignedEventIds]
      | some f => rw [applyOp, exit_fragment_cons b p rest f hss hcf]; rfl

lemma applyOp_group_counter (b : Builder) (op : Op) :
    (applyOp b op).2.group_counter = b.group_counter + (assignedGroupIds b op).length := by
  cases op with
  | addMessage xs =>
    cases hcf : b.current_fragment with
    | none => rw [applyOp, add_message_base b xs hcf]; rfl
    | some f =>
      cases hcg : b.current_group with
      | none => rw [applyOp, add_message_err b xs f hcf hcg]; rfl
      | some g => rw [applyOp, add_message_group b xs f g hcf hcg]; rfl
  | addState s =>
    cases hcf : b.current_fragment with
    | none => rw [applyOp, add_state_base b s hcf]; rfl
    | some f =>
      cases hcg : b.current_group with
      | none => rw [applyOp, add_state_err b s f hcf hcg]; rfl
      | some g => rw [applyOp, add_state_group b s f g hcf hcg]; rfl
  | enterFragment =>
    cases hcf : b.current_fragment with
    | none => rw [applyOp, enter_fragment_base b hcf]; rfl
    | some f =>
      cases hcg : b.current_group with
      | none => rw [applyOp, enter_fragment_err b f hcf hcg]; rfl
      | some g => rw [applyOp, enter_fragment_group b f g hcf hcg]; rfl
  | enterGroup guard =>
    cases hcf : b.current_fragment with
    | none => rw [applyOp, enter_group_err b guard hcf]; simp [assignedGroupIds, hcf]
    | some f => rw [applyOp, enter_group_some b guard f hcf]; simp [assignedGroupIds, hcf]
  | exitFragment =>
    cases hss : b.state_stack with
    | nil => rw [applyOp, exit_fragment_nil b hss]; rfl
    | cons p rest =>
      cases hcf : b.current_fragment with
      | none => simp [applyOp, exit_fragment, hss, hcf, assignedGroupIds]
      | some f => rw [applyOp, exit_fragment_cons b p rest f hss hcf]; rfl

lemma applyOp_fragment_counter (b : Builder) (op : Op) :
    (applyOp b op).2.fragment_counter = b.fragment_counter + (assignedFragmentIds b op).length := by
  cases op with
  | addMessage xs =>
    cases hcf : b.current_fragment with
    | none => rw [applyOp, add_message_base b xs hcf]; rfl
    | some f =>
      cases hcg : b.current_group with
      | none => rw [applyOp, add_message_err b xs f hcf hcg]; rfl
      | some g => rw [applyOp, add_message_group b xs f g hcf hcg]; rfl
  | addState s =>
    cases hcf : b.current_fragment with
    | none => rw [applyOp, add_state_base b s hcf]; rfl
    | some f =>
      cases hcg : b.current_group with
      | none => rw [applyOp, add_state_err b s f hcf hcg]; rfl
      | some g => rw [applyOp, add_state_group b s f g hcf hcg]; rfl
  | enterFragment =>
    cases hcf : b.current_fragment with
    | none => rw [applyOp, enter_fragment_base b hcf]; rfl
    | some f =>
      cases hcg : b.current_group with
      | none => rw [applyOp, enter_fragment_err b f hcf hcg]; rfl
      | some g => rw [applyOp, enter_fragment_group b f g hcf hcg]; rfl
  | enterGroup guard =>
    cases hcf : b.current_fragment with
    | none => rw [applyOp, enter_group_err b guard hcf]; rfl
    | some f => rw [applyOp, enter_group_some b guard f hcf]; rfl
  | exitFragment =>
    cases hss : b.state_stack with
    | nil => rw [applyOp, exit_fragment_nil b hss]; rfl
    | cons p rest =>
      cases hcf : b.current_fragment with
      | none => simp [applyOp, exit_fragment, hss, hcf, assignedFragmentIds]
      | some f => rw [applyOp, exit_fragment_cons b p rest f hss hcf]; rfl

lemma assignedEventIds_range (b : Builder) (op : Op) :
    assignedEventIds b op = List.range' b.event_counter (assignedEventIds b op).length := by
  cases op <;> simp [assignedEventIds]

lemma assignedGroupIds_range (b : Builder) (op : Op) :
    assignedGroupIds b op = List.range' b.group_counter (assignedGroupIds b op).length := by
  cases op <;> simp [assignedGroupIds]
  split <;> simp

lemma assignedFragmentIds_range (b : Builder) (op : Op) :
    assignedFragmentIds b op = List.range' b.fragment_counter (assignedFragmentIds b op).length := by
  cases op <;> simp [assignedFragmentIds]

lemma trace_eq_range (proj : Builder → Nat) (asgn : Builder → Op → List Nat)
    (tr : Builder → List Op → List Nat)
    (hnil : ∀ b, tr b [] = [])
    (hcons : ∀ b op rest, tr b (op :: rest) = asgn b op ++ tr (applyOp b op).2 rest)
    (hcnt : ∀ b op, proj (applyOp b op).2 = proj b + (asgn b op).length)
    (hrange : ∀ b op, asgn b op = List.range' (proj b) (asgn b op).length) :
    ∀ (ops : List Op) (b : Builder),
      tr b ops = List.range' (proj b) (proj (runOps b ops) - proj b) := by
  have hmono : ∀ (ops : List Op) (b : Builder), proj b ≤ proj (runOps b ops) := by
    intro ops
    induction ops with
    | nil => intro b; exact Nat.le_refl _
    | cons op rest ih =>
      intro b
      calc proj b ≤ proj (applyOp b op).2 := by rw [hcnt]; exact Nat.le_add_right _ _
        _ ≤ proj (runOps (applyOp b op).2 rest) := ih _
  intro ops
  induction ops with
  | nil =>
    intro b
    rw [hnil, runOps, Nat.sub_self, List.range'_zero]
  | cons op rest ih =>
    intro b
    rw [hcons, ih, hrange, runOps]
    have h1 : proj (applyOp b op).2 = proj b + (asgn b op).length := hcnt b op
    have h2 : proj (applyOp b op).2 ≤ proj (runOps (applyOp b op).2 rest) := hmono rest _
    rw [h1]
    rw [List.range'_append_1]
    congr 1
    omega

/-- C6: over any call sequence from a fresh builder, the event ids, the
group ids and the fragment ids handed out to created nodes are, in
creation order, exactly 1, 2, …, n for the respective final counter:
each kind starts at 1, increases strictly, never repeats, and the three
counters run independently. -/
theorem C6_id_monotonicity (ops : List Op) :
    traceEventIds initBuilder ops
      = List.range' 1 ((runOps initBuilder ops).event_counter - 1) ∧
    traceGroupIds initBuilder ops
      = List.range' 1 ((runOps initBuilder ops).group_counter - 1) ∧
    traceFragmentIds initBuilder ops
      = List.range' 1 ((runOps initBuilder ops).fragment_counter - 1) ∧
    List.Pairwise (· < ·) (traceEventIds initBuilder ops) ∧
    List.Pairwise (· < ·) (traceGroupIds initBuilder ops) ∧
    List.Pairwise (· < ·) (traceFragmentIds initBuilder ops) := by
  have he := trace_eq_range (fun b => b.event_counter) assignedEventIds traceEventIds
    (fun _ => rfl) (fun _ _ _ => rfl) applyOp_event_counter assignedEventIds_range
    ops initBuilder
  have hg := trace_eq_range (fun b => b.group_counter) assignedGroupIds traceGroupIds
    (fun _ => rfl) (fun _ _ _ => rfl) applyOp_group_counter assignedGroupIds_range
    ops initBuilder
  have hf := trace_eq_range (fun b => b.fragment_counter) assignedFragmentIds traceFragmentIds
    (fun _ => rfl) (fun _ _ _ => rfl) applyOp_fragment_counter assignedFragmentIds_range
    ops initBuilder
  exact ⟨he, hg, hf, he ▸ List.pairwise_lt_range' _ _, hg ▸ List.pairwise_lt_range' _ _,
    hf ▸ List.pairwise_lt_range' _ _⟩

/-! ## Claim C10: a failed creation still consumes an id -/

/-- C10: `add_message`, `add_state` and `enter_fragment` construct their
node and advance the counter before the active-group check, so a call
that fails with `NoActiveGroup` still consumes an id; after such a
failure the ids of later attached nodes of that kind skip a value, and
the first attached event of a run need not carry id 1 (in the concrete
run below the only attached message has id 2). -/
theorem C10_failed_creation_consumes_id (b : Builder) (xs : List String) (s : String) :
    ((add_message b xs).1 = .error .NoActiveGroup →
      (add_message b xs).2.event_counter = b.event_counter + 1) ∧
    ((add_state b s).1 = .error .NoActiveGroup →
      (add_state b s).2.event_counter = b.event_counter + 1) ∧
    ((enter_fragment b).1 = .error .NoActiveGroup →
      (enter_fragment b).2.fragment_counter = b.fragment_counter + 1) ∧
    traceEventIds initBuilder
        [Op.enterFragment, Op.addMessage ["x"], Op.enterGroup none, Op.addMessage ["y"]]
      = [1, 2] ∧
    resolveScenario (runOps initBuilder
        [Op.enterFragment, Op.addMessage ["x"], Op.enterGroup none, Op.addMessage ["y"]])
      = [.frag 1 [(1, none, [.msg 2 ["y"]])]] := by
  refine ⟨?_, ?_, ?_, rfl, rfl⟩
  · intro herr
    cases hcf : b.current_fragment with
    | none => rw [add_message_base b xs hcf] at herr; cases herr
    | some f =>
      cases hcg : b.current_group with
      | none => rw [add_message_err b xs f hcf hcg]
      | some g => rw [add_message_group b xs f g hcf hcg] at herr; cases herr
  · intro herr
    cases hcf : b.current_fragment with
    | none => rw [add_state_base b s hcf] at herr; cases herr
    | some f =>
      cases hcg : b.current_group with
      | none => rw [add_state_err b s f hcf hcg]
      | some g => rw [add_state_group b s f g hcf hcg] at herr; cases herr
  · intro herr
    cases hcf : b.current_fragment with
    | none => rw [enter_fragment_base b hcf] at herr; cases herr
    | some f =>
      cases hcg : b.current_group with
      | none => rw [enter_fragment_err b f hcf hcg]
      | some g => rw [enter_fragment_group b f g hcf hcg] at herr; cases herr

/-- Witness for C10 at the state inside a fresh fragment, where all three
creators fail with `NoActiveGroup` yet advance their counters. -/
theorem C10_witness :
    (add_message (runOps initBuilder [Op.enterFragment]) ["x"]).2.event_counter
      = (runOps initBuilder [Op.enterFragment]).event_counter + 1 ∧
    (add_state (runOps initBuilder [Op.enterFragment]) "s").2.event_counter
      = (runOps initBuilder [Op.enterFragment]).event_counter + 1 ∧
    (enter_fragment (runOps initBuilder [Op.enterFragment])).2.fragment_counter
      = (runOps initBuilder [Op.enterFragment]).fragment_counter + 1 :=
  ⟨(C10_failed_creation_consumes_id (runOps initBuilder [Op.enterFragment]) ["x"] "s").1 rfl,
   (C10_failed_creation_consumes_id (runOps initBuilder [Op.enterFragment]) ["x"] "s").2.1 rfl,
   (C10_failed_creation_consumes_id (runOps initBuilder [Op.enterFragment]) ["x"] "s").2.2.1 rfl⟩

end Scenario
